import Mathlib

/-!
Verification development for the gdext instance-binding and virtual-dispatch
bridge (godot-core `registry/callbacks.rs` and the virtual-dispatch code
generated by godot-macros `interface_trait_impl.rs`).

Pure functions of the source are translated directly; the FFI callbacks are
modelled by explicit state passing, with a fatal contract violation (process
abort) modelled as `none`, and observable side effects (host-interface calls,
sub-structure frees, hook/user-body invocations) modelled as event traces.
-/

namespace Gdext

/-- Lifecycle states of an instance record: Created → MarkedDestroyed → Freed
(terminal), per spec §4.1. -/
inductive Lifecycle where
  | created
  | markedDestroyed
  | freed
deriving DecidableEq, Repr

/-- Modelled from the spec: `InstanceStorage` (its definition lives outside the
covered sources; only its callers in `registry/callbacks.rs` are given). It owns
the boxed user instance `user`, carries the destruction/lifecycle state of §4.1,
and — for reference-counted base classes — the external reference count that
`on_inc_ref` / `on_dec_ref` forward to. -/
structure InstanceStorage (α : Type) where
  lifecycle : Lifecycle
  user : α
  refcount : Nat
deriving DecidableEq, Repr

/-- Modelled from the spec: the shared-borrow operation (`storage.get()`); it
fails as a fatal contract violation (modelled as `none`) unless the record is
still `created`. -/
def InstanceStorage.get (s : InstanceStorage α) : Option α :=
  if s.lifecycle = Lifecycle.created then some s.user else none

/-- Modelled from the spec: the exclusive-borrow operation (`storage.get_mut()`);
it fails as a fatal contract violation (modelled as `none`) unless the record is
still `created`. -/
def InstanceStorage.get_mut (s : InstanceStorage α) : Option α :=
  if s.lifecycle = Lifecycle.created then some s.user else none

/-- Modelled from the spec: `mark_destroyed_by_godot` transitions the record to
`MarkedDestroyed` synchronously, before teardown; the user instance is not yet
deallocated. -/
def InstanceStorage.mark_destroyed_by_godot (s : InstanceStorage α) : InstanceStorage α :=
  { s with lifecycle := Lifecycle.markedDestroyed }

/-- Modelled from the spec: `destroy_storage` deallocates the boxed instance and
the binding bookkeeping; the record reaches the terminal `Freed` state. -/
def destroy_storage (s : InstanceStorage α) : InstanceStorage α :=
  { s with lifecycle := Lifecycle.freed }

/-- The `free` lifecycle callback (`registry/callbacks.rs`, `free`): the body is
two statements, `storage.mark_destroyed_by_godot()` followed by
`destroy_storage::<T>(instance)`. The result lists the storage states after each
of the two statements, in program order. -/
def free (s : InstanceStorage α) : List (InstanceStorage α) :=
  let s1 := s.mark_destroyed_by_godot
  let s2 := destroy_storage s1
  [s1, s2]

/-- Modelled from the spec: `on_inc_ref` forwards an increment of the external
reference count when the base class is reference-counted, and is a no-op
otherwise (spec §4.2). -/
def InstanceStorage.on_inc_ref (ref_counted : Bool) (s : InstanceStorage α) :
    InstanceStorage α :=
  if ref_counted then { s with refcount := s.refcount + 1 } else s

/-- Modelled from the spec: `on_dec_ref` forwards a decrement of the external
reference count when the base class is reference-counted, and is a no-op
otherwise (spec §4.2). -/
def InstanceStorage.on_dec_ref (ref_counted : Bool) (s : InstanceStorage α) :
    InstanceStorage α :=
  if ref_counted then { s with refcount := s.refcount - 1 } else s

/-- The `reference` callback (`registry/callbacks.rs`): forwards to the
storage's `on_inc_ref`. -/
def reference (ref_counted : Bool) (s : InstanceStorage α) : InstanceStorage α :=
  s.on_inc_ref ref_counted

/-- The `unreference` callback (`registry/callbacks.rs`): forwards to the
storage's `on_dec_ref`. -/
def unreference (ref_counted : Bool) (s : InstanceStorage α) : InstanceStorage α :=
  s.on_dec_ref ref_counted

theorem refcount_after_reference_iter (ref_counted : Bool) (s : InstanceStorage α) :
    ∀ N : Nat, ((reference ref_counted)^[N] s).refcount =
      if ref_counted then s.refcount + N else s.refcount := by
  intro N
  induction N with
  | zero => cases ref_counted <;> simp
  | succ n ih =>
      rw [Function.iterate_succ_apply']
      cases ref_counted with
      | false => simpa [reference, InstanceStorage.on_inc_ref] using ih
      | true =>
          simp only [reference, InstanceStorage.on_inc_ref, if_pos] at ih ⊢
          simp [ih]; omega

theorem refcount_after_unreference_iter (ref_counted : Bool) (s : InstanceStorage α) :
    ∀ N : Nat, ((unreference ref_counted)^[N] s).refcount =
      if ref_counted then s.refcount - N else s.refcount := by
  intro N
  induction N with
  | zero => cases ref_counted <;> simp
  | succ n ih =>
      rw [Function.iterate_succ_apply']
      cases ref_counted with
      | false => simpa [unreference, InstanceStorage.on_dec_ref] using ih
      | true =>
          simp only [unreference, InstanceStorage.on_dec_ref, if_pos] at ih ⊢
          simp [ih]; omega

theorem noop_when_not_refcounted (s : InstanceStorage α) :
    ∀ N : Nat, (reference false)^[N] s = s ∧ (unreference false)^[N] s = s := by
  intro N
  induction N with
  | zero => exact ⟨rfl, rfl⟩
  | succ n ih =>
      refine ⟨?_, ?_⟩
      · rw [Function.iterate_succ_apply, show reference false s = s from rfl, ih.1]
      · rw [Function.iterate_succ_apply, show unreference false s = s from rfl, ih.2]

/-- BeforeKind (crate::class, used by `interface_trait_impl.rs`): whether the
generated virtual-method callback runs `__before_ready()` in addition to the
user body (`withBefore`), not at all (`without`), or instead of a user body
(`onlyBefore`, for the synthetic `_ready` arm). -/
inductive BeforeKind where
  | without
  | withBefore
  | onlyBefore
deriving DecidableEq, Repr

/-- An observable event of one invocation of a generated virtual-method thunk:
the `__before_ready()` hook (OnReady-field initialization), or the
user-overridden virtual method body. -/
inductive CallEvent where
  | beforeReady
  | userBody (name : String)
deriving DecidableEq, Repr

/-- Modelled from the spec: `make_virtual_callback` (crate::class, outside the
covered sources) builds the call thunk for one overridden virtual method. Its
observable event sequence per invocation follows spec §4.3/§9: the before-hook
(when requested) is sequenced strictly before the optional user body. -/
def make_virtual_callback (name : String) (k : BeforeKind) : List CallEvent :=
  match k with
  | BeforeKind.without => [CallEvent.userBody name]
  | BeforeKind.withBefore => [CallEvent.beforeReady, CallEvent.userBody name]
  | BeforeKind.onlyBefore => [CallEvent.beforeReady]

/-- One entry of `overridden_virtuals` in `transform_trait_impl`
(`interface_trait_impl.rs`, struct `OverriddenVirtualFn`): the Godot-facing
method name, the build-time hash constant, and the before-hook kind. -/
structure OverriddenVirtualFn where
  method_name : String
  hash_constant : Nat
  before_kind : BeforeKind
deriving DecidableEq, Repr

/-- Godot-facing virtual method name (`transform_trait_impl`): the special
Rust-side name `init_ext` maps back to `_init`; every other method name gets an
underscore prepended. -/
def virtual_method_name (s : String) : String :=
  if s == "init_ext" then "_init" else "_" ++ s

/-- is_possibly_node_class (`interface_trait_impl.rs`): returns `false` only
for the listed base classes that definitely do not inherit `Node`, `true` for
every other base class. -/
def is_possibly_node_class (trait_base_class : String) : Bool :=
  !(trait_base_class == "Object"
    || trait_base_class == "MainLoop"
    || trait_base_class == "RefCounted"
    || trait_base_class == "Resource"
    || trait_base_class == "ResourceLoader"
    || trait_base_class == "ResourceSaver"
    || trait_base_class == "SceneTree"
    || trait_base_class == "Script"
    || trait_base_class == "ScriptExtension")

/-- The `overridden_virtuals` entry pushed for one user-overridden "other"
virtual method `m` in `transform_trait_impl`: Godot-facing name, the hash
constant `known_virtual_hashes::trait_base_class::m`, and
`BeforeKind.withBefore` exactly when `m` is `ready`. -/
def user_virtual_entry (hash_of : String → String → Nat)
    (trait_base_class m : String) : OverriddenVirtualFn :=
  { method_name := virtual_method_name m
    hash_constant := hash_of trait_base_class m
    before_kind :=
      if m == "ready" then BeforeKind.withBefore else BeforeKind.without }

/-- The synthetic `_ready` match arm injected by `transform_trait_impl` when no
user override named `_ready` exists: it carries the `Node::ready` hash and runs
only the before-hook (`BeforeKind.onlyBefore`). -/
def synthetic_ready_entry (hash_of : String → String → Nat) : OverriddenVirtualFn :=
  { method_name := "_ready"
    hash_constant := hash_of "Node" "ready"
    before_kind := BeforeKind.onlyBefore }

/-- The `overridden_virtuals` list assembled by `transform_trait_impl`: one
entry per user-overridden "other" virtual method (in source order), with
`BeforeKind.withBefore` exactly for `ready`; when the base class possibly
inherits `Node` and no user entry is named `_ready`, the synthetic `_ready` arm
with the `Node::ready` hash and `BeforeKind.onlyBefore` is appended.
`hash_of base method` stands for the build-time constant
`known_virtual_hashes::base::method`. -/
def overridden_virtuals (hash_of : String → String → Nat)
    (trait_base_class : String) (user_methods : List String) :
    List OverriddenVirtualFn :=
  let user := user_methods.map (user_virtual_entry hash_of trait_base_class)
  if is_possibly_node_class trait_base_class
      && !(user.any fun v => v.method_name == "_ready") then
    user ++ [synthetic_ready_entry hash_of]
  else
    user

/-- The generated `__virtual_call` body on a build that carries virtual-method
hashes (since API 4.4): a match of `(name, hash)` against each overridden
virtual's `(method_name, hash_constant)` arm in order, with `_ => None`; a
matching arm yields the thunk built by `make_virtual_callback`. -/
def virtual_call (ovs : List OverriddenVirtualFn) (name : String) (hash : Nat) :
    Option (List CallEvent) :=
  (ovs.find? fun v => v.method_name == name && v.hash_constant == hash).map
    fun v => make_virtual_callback v.method_name v.before_kind

/-- The generated `__virtual_call` body on a build without virtual-method
hashes (before API 4.4): the match is on the name alone. -/
def virtual_call_no_hash (ovs : List OverriddenVirtualFn) (name : String) :
    Option (List CallEvent) :=
  (ovs.find? fun v => v.method_name == name).map
    fun v => make_virtual_callback v.method_name v.before_kind

/-- The `get_virtual` callback (`registry/callbacks.rs`) dispatches to the
class's `__virtual_call`; which of the two lookup bodies is compiled is fixed
once per build by `cfg!(since_api = "4.4")`, modelled by the build-level flag
`has_hashes`. -/
def get_virtual (has_hashes : Bool) (ovs : List OverriddenVirtualFn)
    (name : String) (hash : Nat) : Option (List CallEvent) :=
  if has_hashes then virtual_call ovs name hash else virtual_call_no_hash ovs name

theorem virtual_method_name_eq_ready (m : String) :
    virtual_method_name m = "_ready" ↔ m = "ready" := by
  unfold virtual_method_name
  by_cases h : m = "init_ext"
  · subst h; decide
  · rw [if_neg (by simpa using h)]
    constructor
    · intro hm
      have hd : ("_" ++ m).data = ("_ready" : String).data := by rw [hm]
      have : m.data = ("ready" : String).data := by
        simpa [String.data_append] using hd
      exact String.ext this
    · intro hm; subst hm; rfl

/-- C1: the `free` callback first transitions the record to `MarkedDestroyed`
— before any teardown, the user instance is still intact there — and only the
second step deallocates (`Freed`); from the first step on, neither a shared nor
an exclusive borrow of the record can begin. -/
theorem C1_free_marks_destroyed_before_dealloc (s : InstanceStorage α) :
    (free s).length = 2
    ∧ ((free s).head?.map (fun t => t.lifecycle)) = some Lifecycle.markedDestroyed
    ∧ ((free s).head?.map (fun t => t.user)) = some s.user
    ∧ ((free s).getLast?.map (fun t => t.lifecycle)) = some Lifecycle.freed
    ∧ (∀ t ∈ free s, t.get = none ∧ t.get_mut = none) := by
  refine ⟨rfl, rfl, rfl, rfl, ?_⟩
  intro t ht
  have : t = s.mark_destroyed_by_godot ∨ t = destroy_storage s.mark_destroyed_by_godot := by
    simpa [free] using ht
  rcases this with h | h <;>
    simp [h, InstanceStorage.get, InstanceStorage.get_mut,
      InstanceStorage.mark_destroyed_by_godot, destroy_storage]

/-- C8: N `reference` calls followed by N `unreference` calls restore the
external reference count to its pre-call value, for every N ≥ 0; for a
non-reference-counted base class both callbacks are no-ops. -/
theorem C8_reference_unreference_balance (ref_counted : Bool)
    (s : InstanceStorage α) (N : Nat) :
    ((unreference ref_counted)^[N] ((reference ref_counted)^[N] s)).refcount = s.refcount
    ∧ (reference false)^[N] s = s
    ∧ (unreference false)^[N] s = s := by
  refine ⟨?_, (noop_when_not_refcounted s N).1, (noop_when_not_refcounted s N).2⟩
  rw [refcount_after_unreference_iter, refcount_after_reference_iter]
  cases ref_counted <;> simp

theorem isSome_map {β γ : Type} (f : β → γ) (o : Option β) :
    (o.map f).isSome = o.isSome := by
  cases o <;> rfl

theorem find?_append_none {β : Type} (p : β → Bool) :
    ∀ l₁ l₂ : List β, l₁.find? p = none → (l₁ ++ l₂).find? p = l₂.find? p := by
  intro l₁
  induction l₁ with
  | nil => intro l₂ _; rfl
  | cons a tl ih =>
      intro l₂ hnone
      by_cases hpa : p a = true
      · rw [List.find?_cons_of_pos _ hpa] at hnone; cases hnone
      · rw [List.find?_cons_of_neg _ hpa] at hnone
        rw [List.cons_append, List.find?_cons_of_neg _ hpa, ih l₂ hnone]

theorem count_flatten_replicate {β : Type} [DecidableEq β] (e : β) (l : List β) :
    ∀ n : Nat, ((List.replicate n l).flatten).count e = n * l.count e := by
  intro n
  induction n with
  | zero => simp
  | succ k ih =>
      rw [List.replicate_succ, List.flatten_cons, List.count_append, ih]
      ring

theorem find_ready_user_entry (hash_of : String → String → Nat) (base : String) :
    ∀ ms : List String, "ready" ∈ ms →
      ((ms.map (user_virtual_entry hash_of base)).find? fun v =>
          v.method_name == "_ready" && v.hash_constant == hash_of base "ready")
        = some (user_virtual_entry hash_of base "ready") := by
  intro ms
  induction ms with
  | nil => intro hmem; cases hmem
  | cons m tl ih =>
      intro hmem
      by_cases hm : m = "ready"
      · subst hm
        have hname : virtual_method_name "ready" = "_ready" :=
          (virtual_method_name_eq_ready "ready").2 rfl
        have hp : (((user_virtual_entry hash_of base "ready").method_name == "_ready")
            && ((user_virtual_entry hash_of base "ready").hash_constant
                == hash_of base "ready")) = true := by
          simp [user_virtual_entry, hname]
        rw [List.map_cons]
        simp [List.find?_cons, hp]
      · have hne : virtual_method_name m ≠ "_ready" :=
          fun hc => hm ((virtual_method_name_eq_ready m).1 hc)
        have hmem' : "ready" ∈ tl := by
          rcases List.mem_cons.mp hmem with heq | htl
          · exact absurd heq.symm hm
          · exact htl
        have hp : (((user_virtual_entry hash_of base m).method_name == "_ready")
            && ((user_virtual_entry hash_of base m).hash_constant
                == hash_of base "ready")) = false := by
          simp [user_virtual_entry, hne]
        rw [List.map_cons]
        simp [List.find?_cons, hp, ih hmem']

theorem any_ready_of_mem (hash_of : String → String → Nat) (base : String)
    (ms : List String) (hmem : "ready" ∈ ms) :
    ((ms.map (user_virtual_entry hash_of base)).any
      fun v => v.method_name == "_ready") = true := by
  refine List.any_eq_true.mpr ?_
  refine ⟨user_virtual_entry hash_of base "ready", List.mem_map_of_mem _ hmem, ?_⟩
  simp [user_virtual_entry, (virtual_method_name_eq_ready "ready").2 rfl]

theorem find_user_entry_none (hash_of : String → String → Nat) (base M : String)
    (h : Nat) (ms : List String) (hno : ∀ m ∈ ms, virtual_method_name m ≠ M) :
    ((ms.map (user_virtual_entry hash_of base)).find? fun v =>
        v.method_name == M && v.hash_constant == h) = none := by
  rw [List.find?_eq_none]
  intro v hv
  rcases List.mem_map.mp hv with ⟨m, hm, rfl⟩
  simp only [user_virtual_entry, Bool.and_eq_true, beq_iff_eq, not_and]
  exact fun hc => absurd hc (hno m hm)

/-- C2: on a build that carries virtual-method hashes, `get_virtual` yields a
thunk exactly when some registered override matches both the name and the hash
— a mismatched hash or an unregistered name yields none — and the returned
thunk is the matching entry's; on an older build, lookup matches on the name
alone and the result does not depend on the hash argument at all. The policy is
the build-level flag, not a per-call branch. -/
theorem C2_get_virtual_matching (ovs : List OverriddenVirtualFn) (n : String)
    (h : Nat) :
    ((get_virtual true ovs n h).isSome
      ↔ ∃ v ∈ ovs, v.method_name = n ∧ v.hash_constant = h)
    ∧ ((get_virtual false ovs n h).isSome ↔ ∃ v ∈ ovs, v.method_name = n)
    ∧ (∀ h' : Nat, get_virtual false ovs n h = get_virtual false ovs n h')
    ∧ (∀ t, get_virtual true ovs n h = some t →
        ∃ v ∈ ovs, v.method_name = n ∧ v.hash_constant = h
          ∧ t = make_virtual_callback v.method_name v.before_kind) := by
  refine ⟨?_, ?_, fun h' => rfl, ?_⟩
  · simp [get_virtual, virtual_call, isSome_map, List.find?_isSome]
  · simp [get_virtual, virtual_call_no_hash, isSome_map, List.find?_isSome]
  · intro t ht
    have ht' : virtual_call ovs n h = some t := ht
    simp only [virtual_call] at ht'
    rcases Option.map_eq_some'.mp ht' with ⟨v, hfind, hmk⟩
    have hpv := List.find?_some hfind
    have hmem := List.mem_of_find?_eq_some hfind
    simp only [Bool.and_eq_true, beq_iff_eq] at hpv
    exact ⟨v, hmem, hpv.1, hpv.2, hmk.symm⟩

/-- C3: for a class overriding `ready`, the `_ready` thunk installed in the
generated virtual table runs the before-hook strictly before the user body,
and across `n` deliveries of the ready notification the hook and the user body
each occur exactly once per delivery. -/
theorem C3_ready_before_hook_each_delivery (hash_of : String → String → Nat)
    (base : String) (ms : List String) (n : Nat) (hmem : "ready" ∈ ms) :
    virtual_call (overridden_virtuals hash_of base ms) "_ready"
        (hash_of base "ready")
      = some [CallEvent.beforeReady, CallEvent.userBody "_ready"]
    ∧ ((List.replicate n [CallEvent.beforeReady, CallEvent.userBody "_ready"]).flatten).count
        CallEvent.beforeReady = n
    ∧ ((List.replicate n [CallEvent.beforeReady, CallEvent.userBody "_ready"]).flatten).count
        (CallEvent.userBody "_ready") = n := by
  have h1 : ([CallEvent.beforeReady, CallEvent.userBody "_ready"]).count
      CallEvent.beforeReady = 1 := by decide
  have h2 : ([CallEvent.beforeReady, CallEvent.userBody "_ready"]).count
      (CallEvent.userBody "_ready") = 1 := by decide
  refine ⟨?_, ?_, ?_⟩
  · have hany := any_ready_of_mem hash_of base ms hmem
    have hfind := find_ready_user_entry hash_of base ms hmem
    have hname : virtual_method_name "ready" = "_ready" :=
      (virtual_method_name_eq_ready "ready").2 rfl
    simp only [overridden_virtuals]
    rw [if_neg (by simp [hany])]
    simp only [virtual_call]
    rw [hfind]
    simp [user_virtual_entry, hname, make_virtual_callback]
  · rw [count_flatten_replicate, h1, Nat.mul_one]
  · rw [count_flatten_replicate, h2, Nat.mul_one]

/-- C4: for a class with no override of the queried method, the generated
virtual lookup returns none, with a single exception: the synthetic
`_ready` before-hook entry (running only the hook, no user body), which is
present exactly for the base types `is_possibly_node_class` accepts and answers
the `Node::ready` hash. -/
theorem C4_get_virtual_none_without_override (hash_of : String → String → Nat)
    (base : String) (ms : List String) (M : String) (h : Nat)
    (hno : M ∉ ms.map virtual_method_name) :
    virtual_call (overridden_virtuals hash_of base ms) M h
      = if is_possibly_node_class base && (M == "_ready")
            && (h == hash_of "Node" "ready")
        then some [CallEvent.beforeReady] else none := by
  have hno' : ∀ m ∈ ms, virtual_method_name m ≠ M := by
    intro m hm he
    exact hno (he ▸ List.mem_map_of_mem _ hm)
  have hfind := find_user_entry_none hash_of base M h ms hno'
  simp only [overridden_virtuals]
  by_cases hc : (is_possibly_node_class base
      && !((ms.map (user_virtual_entry hash_of base)).any
            fun v => v.method_name == "_ready")) = true
  · rw [if_pos hc]
    obtain ⟨hpos, hanyf⟩ : is_possibly_node_class base = true
        ∧ ((ms.map (user_virtual_entry hash_of base)).any
            fun v => v.method_name == "_ready") = false := by
      simpa [Bool.and_eq_true, Bool.not_eq_true'] using hc
    simp only [virtual_call]
    rw [find?_append_none _ _ _ hfind]
    by_cases hM : M = "_ready"
    · subst hM
      by_cases hh : h = hash_of "Node" "ready"
      · subst hh
        have hp : (((synthetic_ready_entry hash_of).method_name == "_ready")
            && ((synthetic_ready_entry hash_of).hash_constant
                == hash_of "Node" "ready")) = true := by
          simp [synthetic_ready_entry]
        simp [List.find?_cons, hp, synthetic_ready_entry, make_virtual_callback, hpos]
      · have h2 : ((hash_of "Node" "ready") == h) = false :=
          beq_eq_false_iff_ne.mpr (fun he => hh he.symm)
        have h2' : (h == hash_of "Node" "ready") = false :=
          beq_eq_false_iff_ne.mpr hh
        have hp : (((synthetic_ready_entry hash_of).method_name == "_ready")
            && ((synthetic_ready_entry hash_of).hash_constant == h)) = false := by
          simp [synthetic_ready_entry, h2]
        simp [List.find?_cons, hp, h2']
    · have h1 : (("_ready" : String) == M) = false :=
        beq_eq_false_iff_ne.mpr (fun he => hM he.symm)
      have h1' : (M == "_ready") = false := beq_eq_false_iff_ne.mpr hM
      have hp : (((synthetic_ready_entry hash_of).method_name == M)
          && ((synthetic_ready_entry hash_of).hash_constant == h)) = false := by
        simp [synthetic_ready_entry, h1]
      simp [List.find?_cons, hp, h1']
  · rw [if_neg hc]
    have hLHS : virtual_call (ms.map (user_virtual_entry hash_of base)) M h
        = none := by
      simp only [virtual_call]; rw [hfind]; rfl
    rw [hLHS]
    by_cases hpos : is_possibly_node_class base = true
    · have hany : ((ms.map (user_virtual_entry hash_of base)).any
          fun v => v.method_name == "_ready") = true := by
        by_contra hnot
        have hfalse : ((ms.map (user_virtual_entry hash_of base)).any
            fun v => v.method_name == "_ready") = false :=
          Bool.eq_false_iff.mpr hnot
        exact hc (by rw [hpos, hfalse]; rfl)
      rcases List.any_eq_true.mp hany with ⟨v, hv, hpv⟩
      rcases List.mem_map.mp hv with ⟨m, hm, rfl⟩
      have hmr : virtual_method_name m = "_ready" := by
        simpa [user_virtual_entry] using hpv
      have hMne : M ≠ "_ready" := fun hM => hno' m hm (by rw [hmr, hM])
      have hMf : (M == "_ready") = false := by simpa using hMne
      simp [hMf]
    · have hposf : is_possibly_node_class base = false := by
        simpa using hpos
      simp [hposf]

/-- raw_property_get_revert (`registry/callbacks.rs`): shared-borrows the
instance and forwards the property name to the user's
`__godot_property_get_revert` (parameter `get_revert`). The outer `none` models
the fatal borrow contract violation. -/
def raw_property_get_revert {α V : Type} (get_revert : α → String → Option V)
    (s : InstanceStorage α) (property_name : String) : Option (Option V) :=
  (s.get).map fun inst => get_revert inst property_name

/-- property_can_revert (`registry/callbacks.rs`): the sys bool handed back to
the host is exactly `revert.is_some()` on the result of
`raw_property_get_revert`. -/
def property_can_revert {α V : Type} (get_revert : α → String → Option V)
    (s : InstanceStorage α) (property_name : String) : Option Bool :=
  (raw_property_get_revert get_revert s property_name).map Option.isSome

/-- property_get_revert (`registry/callbacks.rs`): when the user query yields
no value it returns `SYS_FALSE` and writes nothing into `ret`; otherwise it
moves the value into `ret` and returns `SYS_TRUE`. Result per successful call:
the sys bool together with the value written into `ret`, if any. -/
def property_get_revert {α V : Type} (get_revert : α → String → Option V)
    (s : InstanceStorage α) (property_name : String) :
    Option (Bool × Option V) :=
  (raw_property_get_revert get_revert s property_name).map fun revert =>
    match revert with
    | none => (false, none)
    | some v => (true, some v)

/-- U32_MAX: the width of the host's property-list count output field. -/
def U32_MAX : Nat := 4294967295

/-- get_property_list (`registry/callbacks.rs`): builds a fresh sys array from
the instance's declared dynamic properties via `into_owned_property_sys`
(parameter `own_sys`), writes the array length into the host's u32 count
output — the `.try_into().expect(...)` makes a length beyond `U32_MAX` a fatal
panic, modelled as `none` — and leaks the array to the host. -/
def get_property_list {P S : Type} (own_sys : P → S) (property_list : List P) :
    Option (List S × Nat) :=
  let property_list_sys := property_list.map own_sys
  if property_list_sys.length ≤ U32_MAX then
    some (property_list_sys, property_list_sys.length)
  else
    none

/-- free_property_list (`registry/callbacks.rs`): reconstructs the boxed slice
of length `count` from the leaked array and calls `free_owned_property_sys`
exactly once per contained struct. Result: the sequence of sub-structure
frees, in iteration order. -/
def free_property_list {S : Type} (list : List S) (count : Nat) : List S :=
  let property_list_slice := list.take count
  property_list_slice

/-- A call into one of the host-provided construction/linking functions of
spec §6, as issued by the lifecycle callbacks. -/
inductive HostCall where
  | classdb_construct_object (base_class_name : String)
  | object_set_instance (handle : Nat) (class_name : String)
  | object_set_instance_binding (handle : Nat)
deriving DecidableEq, Repr

/-- create_rust_part_for_existing_godot_part (`registry/callbacks.rs`): builds
the user instance for an already-existing Godot-side object and links the two
parts via the two host-provided linking calls. Result: the host-interface
calls issued, in program order. -/
def create_rust_part_for_existing_godot_part (class_name : String)
    (base_ptr : Nat) : List HostCall :=
  [HostCall.object_set_instance base_ptr class_name,
   HostCall.object_set_instance_binding base_ptr]

/-- create_custom (`registry/callbacks.rs`): constructs the Godot-side base
object via `classdb_construct_object` — `new_ptr` models the handle the host
returns — and then links the freshly built Rust part to it. -/
def create_custom (base_class_name class_name : String) (new_ptr : Nat) :
    List HostCall :=
  HostCall.classdb_construct_object base_class_name
    :: create_rust_part_for_existing_godot_part class_name new_ptr

/-- recreate (`registry/callbacks.rs`, since API 4.2): reconnects an existing
Godot-side object to a freshly rebuilt Rust instance; its body is exactly
`create_rust_part_for_existing_godot_part` on the given object handle. -/
def recreate (class_name : String) (object : Nat) : List HostCall :=
  create_rust_part_for_existing_godot_part class_name object

/-- on_notification on builds since API 4.2 (`registry/callbacks.rs`):
exclusively borrows the storage and forwards `what` to the user's
`__godot_notification`; the version-gated flag is bound as `_reversed` and
never read. The outer `none` models the fatal borrow failure; otherwise the
updated storage is paired with the `what` value passed into the user call. -/
def on_notification {α : Type} (notify : α → Int → α) (s : InstanceStorage α)
    (what : Int) (_reversed : Bool) : Option (InstanceStorage α × Int) :=
  (s.get_mut).map fun inst => ({ s with user := notify inst what }, what)

/-- C5: `property_can_revert` is exactly "`property_get_revert` returned some
value": the two callbacks agree on the returned sys bool, the bool is true
precisely when a value was written into `ret`, and when the user query yields
no value the callback returns false and writes nothing. -/
theorem C5_can_revert_iff_get_revert {α V : Type}
    (get_revert : α → String → Option V) (s : InstanceStorage α)
    (property_name : String) :
    property_can_revert get_revert s property_name
      = (property_get_revert get_revert s property_name).map (fun r => r.1)
    ∧ property_can_revert get_revert s property_name
      = (property_get_revert get_revert s property_name).map (fun r => r.2.isSome)
    ∧ (∀ b v, property_get_revert get_revert s property_name = some (b, v) →
        (b = true ↔ v.isSome = true)) := by
  unfold property_can_revert property_get_revert raw_property_get_revert
  cases s.get with
  | none => simp
  | some inst =>
      cases hres : get_revert inst property_name with
      | none => simp [hres]
      | some v => simp [hres]

/-- C6: `get_property_list` reports to the host exactly the number of the
instance's declared dynamic properties — the returned array has exactly that
many entries and the count fits the u32 field — and a property list longer
than the u32 field width is a fatal abort, never a truncated count. -/
theorem C6_property_count_exact_or_abort {P S : Type} (own_sys : P → S)
    (property_list : List P) :
    (∀ l c, get_property_list own_sys property_list = some (l, c) →
        c = property_list.length ∧ l.length = c ∧ c ≤ U32_MAX)
    ∧ (U32_MAX < property_list.length →
        get_property_list own_sys property_list = none) := by
  unfold get_property_list
  by_cases hlen : (property_list.map own_sys).length ≤ U32_MAX
  · rw [if_pos hlen]
    constructor
    · intro l c hsome
      obtain ⟨hl, hc⟩ : property_list.map own_sys = l
          ∧ (property_list.map own_sys).length = c := by
        simpa using hsome
      refine ⟨?_, ?_, ?_⟩
      · rw [← hc, List.length_map]
      · rw [← hl, hc]
      · rw [← hc]; simpa using hlen
    · intro hover
      rw [List.length_map] at hlen
      omega
  · rw [if_neg hlen]
    refine ⟨fun l c hsome => ?_, fun _ => rfl⟩
    cases hsome

/-- C7: a `get_property_list` / `free_property_list` round trip frees exactly
the sub-structures the paired allocation produced, once each and in order —
exactly `count` frees in total — and completes with zero frees when the count
is zero. -/
theorem C7_property_list_round_trip {P S : Type} (own_sys : P → S)
    (property_list : List P) (l : List S) (c : Nat)
    (hsome : get_property_list own_sys property_list = some (l, c)) :
    free_property_list l c = l
    ∧ (free_property_list l c).length = c
    ∧ (c = 0 → free_property_list l c = []) := by
  obtain ⟨hl, hc⟩ : property_list.map own_sys = l
      ∧ (property_list.map own_sys).length = c := by
    unfold get_property_list at hsome
    by_cases hlen : (property_list.map own_sys).length ≤ U32_MAX
    · rw [if_pos hlen] at hsome; simpa using hsome
    · rw [if_neg hlen] at hsome; cases hsome
  have hlc : l.length = c := by rw [← hl, hc]
  refine ⟨?_, ?_, ?_⟩
  · rw [free_property_list, ← hlc, List.take_length]
  · rw [free_property_list, ← hlc, List.take_length, hlc]
  · intro hzero
    rw [free_property_list, hzero, List.take_zero]

/-- C9: `recreate` never constructs the Godot-side object — it issues only the
two host linking calls on the existing handle — while `create_custom` first
constructs the base object and then performs exactly the linking sequence of
`recreate` on the fresh handle. -/
theorem C9_recreate_never_constructs (base_class_name class_name : String)
    (object new_ptr : Nat) :
    (∀ b, HostCall.classdb_construct_object b ∉ recreate class_name object)
    ∧ HostCall.object_set_instance object class_name ∈ recreate class_name object
    ∧ HostCall.object_set_instance_binding object ∈ recreate class_name object
    ∧ (create_custom base_class_name class_name new_ptr).head?
        = some (HostCall.classdb_construct_object base_class_name)
    ∧ (create_custom base_class_name class_name new_ptr).tail
        = recreate class_name new_ptr := by
  refine ⟨?_, ?_, ?_, rfl, rfl⟩
  · intro b
    simp [recreate, create_rust_part_for_existing_godot_part]
  · simp [recreate, create_rust_part_for_existing_godot_part]
  · simp [recreate, create_rust_part_for_existing_godot_part]

/-- C10: the observable behavior of `on_notification` is independent of the
version-gated reversed flag: for every instance and notification code, both
flag values produce the identical borrow outcome and the identical user
notification call with the same arguments. -/
theorem C10_on_notification_ignores_reversed {α : Type} (notify : α → Int → α)
    (s : InstanceStorage α) (what : Int) (r₁ r₂ : Bool) :
    on_notification notify s what r₁ = on_notification notify s what r₂ := rfl

/-- Witness for C3 at a concrete class: base `Node2D`, overriding `process` and
`ready`, two deliveries. -/
theorem C3_ready_before_hook_each_delivery_witness :
    ("ready" ∈ ["process", "ready"])
    ∧ (virtual_call (overridden_virtuals (fun _ _ => 7) "Node2D" ["process", "ready"])
          "_ready" 7
        = some [CallEvent.beforeReady, CallEvent.userBody "_ready"]
      ∧ ((List.replicate 2 [CallEvent.beforeReady, CallEvent.userBody "_ready"]).flatten).count
          CallEvent.beforeReady = 2
      ∧ ((List.replicate 2 [CallEvent.beforeReady, CallEvent.userBody "_ready"]).flatten).count
          (CallEvent.userBody "_ready") = 2) :=
  ⟨by decide,
   C3_ready_before_hook_each_delivery (fun _ _ => 7) "Node2D" ["process", "ready"] 2
     (by decide)⟩

/-- Witness for C4 at a concrete class: base `Node`, overriding only `process`,
queried for `_ready` with the `Node::ready` hash — the synthetic before-hook
entry answers. -/
theorem C4_get_virtual_none_without_override_witness :
    ("_ready" ∉ List.map virtual_method_name ["process"])
    ∧ virtual_call (overridden_virtuals (fun _ _ => 5) "Node" ["process"]) "_ready" 5
        = if is_possibly_node_class "Node" && (("_ready" : String) == "_ready")
              && ((5 : Nat) == 5)
          then some [CallEvent.beforeReady] else none :=
  ⟨by decide,
   C4_get_virtual_none_without_override (fun _ _ => 5) "Node" ["process"] "_ready" 5
     (by decide)⟩

/-- Witness for C7 at a concrete three-property list. -/
theorem C7_property_list_round_trip_witness :
    (get_property_list (fun p : Nat => p + 100) [1, 2, 3] = some ([101, 102, 103], 3))
    ∧ (free_property_list [101, 102, 103] 3 = [101, 102, 103]
      ∧ (free_property_list [101, 102, 103] 3).length = 3
      ∧ (3 = 0 → free_property_list [101, 102, 103] 3 = [])) :=
  ⟨by decide,
   C7_property_list_round_trip (fun p => p + 100) [1, 2, 3] [101, 102, 103] 3
     (by decide)⟩

end Gdext
